import Mathlib

/-!
Shallow embedding of the mcu-interface repository (the files
src/mcu_interface/dfu.py and src/mcu_interface/bossa.py), together with
theorems settling the specification claims about it.

Modelling conventions: Python strings are Lean `String`s, Python `None` is
`Option.none`, a raised exception is an `Except` error value, and Python
integers are `Nat` (every integer involved in the modelled code paths is
non-negative and no wrap-around occurs).  Python string primitives
(`str.split`, the `in` operator, `int(s)`, `int(s, 16)`, `textwrap.wrap`,
format specifiers) are modelled by the executable helpers below.
-/

namespace McuIntf

/-! ### Python string primitives -/

/-- Recursion core of `str.split(sep)` over character lists: cut at every
occurrence of the separator, keeping empty chunks, exactly like the Python
method with an explicit non-empty separator.  `fuel` only bounds the
recursion; it is instantiated with `l.length + 1`, which always suffices
because each step either consumes one character or `sep.length ≥ 1`
characters. -/
def splitChGo (sep : List Char) : Nat → List Char → List (List Char)
  | 0, l => [l]
  | _ + 1, [] => [[]]
  | fuel + 1, c :: cs =>
    if sep.isPrefixOf (c :: cs) then
      [] :: splitChGo sep fuel ((c :: cs).drop sep.length)
    else
      match splitChGo sep fuel cs with
      | [] => [[c]]
      | h :: t => (c :: h) :: t

/-- `str.split(sep)` on character lists (Python raises on an empty separator;
the `[l]` result for that case is never used). -/
def splitCh (sep l : List Char) : List (List Char) :=
  if sep.isEmpty then [l] else splitChGo sep (l.length + 1) l

/-- Python `s.split(sep)` for a non-empty separator: keeps empty chunks. -/
def pySplit (s sep : String) : List String :=
  (splitCh sep.toList s.toList).map (fun cs => String.mk cs)

/-- Python `s.split(sep, 1)`: at most one cut, remainder re-joined. -/
def pySplit1 (s sep : String) : List String :=
  match pySplit s sep with
  | [] => []
  | a :: rest => if rest.isEmpty then [a] else [a, String.intercalate sep rest]

/-- Python `pat in hay` on character lists: `pat` occurs contiguously. -/
def containsCh (pat : List Char) : List Char → Bool
  | [] => pat.isEmpty
  | c :: cs => pat.isPrefixOf (c :: cs) || containsCh pat cs

/-- Python `pat in hay` for strings. -/
def strContains (hay pat : String) : Bool :=
  containsCh pat.toList hay.toList

/-- Decimal digit value of a character, if any. -/
def decDigit? (c : Char) : Option Nat :=
  if '0' ≤ c ∧ c ≤ '9' then some (c.toNat - '0'.toNat) else none

/-- Hexadecimal digit value of a character, if any. -/
def hexDigit? (c : Char) : Option Nat :=
  if '0' ≤ c ∧ c ≤ '9' then some (c.toNat - '0'.toNat)
  else if 'a' ≤ c ∧ c ≤ 'f' then some (c.toNat - 'a'.toNat + 10)
  else if 'A' ≤ c ∧ c ≤ 'F' then some (c.toNat - 'A'.toNat + 10)
  else none

/-- Accumulate the value of a digit string; `none` on the first non-digit. -/
def digitsValGo (digit? : Char → Option Nat) (base : Nat) : Nat → List Char → Option Nat
  | acc, [] => some acc
  | acc, c :: cs =>
    match digit? c with
    | some d => digitsValGo digit? base (acc * base + d) cs
    | none => none

/-- Model of Python `int(s)` on plain decimal-digit strings (the only shape
the modelled code feeds it); any other string is a `ValueError`, i.e. `none`. -/
def decToNat? (s : String) : Option Nat :=
  if s.toList.isEmpty then none else digitsValGo decDigit? 10 0 s.toList

/-- Python `int(s, 16)` accepts an optional `0x`/`0X` prefix. -/
def stripHexPrefix : List Char → List Char
  | '0' :: 'x' :: rest => rest
  | '0' :: 'X' :: rest => rest
  | cs => cs

/-- Model of Python `int(s, 16)` on hexadecimal-digit strings with an
optional `0x` prefix; any other string is a `ValueError`, i.e. `none`. -/
def hexToNat? (s : String) : Option Nat :=
  let cs := stripHexPrefix s.toList
  if cs.isEmpty then none else digitsValGo hexDigit? 16 0 cs

/-- Chunks of `w` characters; recursion core of `textwrap.wrap` on a string
without whitespace.  `fuel` is instantiated with `l.length + 1`. -/
def chunksGo (w : Nat) : Nat → List Char → List (List Char)
  | _, [] => []
  | 0, l => [l]
  | fuel + 1, c :: cs => ((c :: cs).take w) :: chunksGo w fuel ((c :: cs).drop w)

/-- Model of `textwrap.wrap(s, w)` for a whitespace-free `s` and `w > 0`:
successive chunks of `w` characters. -/
def pyWrap (s : String) (w : Nat) : List String :=
  (chunksGo w (s.toList.length + 1) s.toList).map (fun cs => String.mk cs)

/-- Lowercase hexadecimal digit character for a value below 16. -/
def hexDigitChar (n : Nat) : Char :=
  if n < 10 then Char.ofNat ('0'.toNat + n) else Char.ofNat ('a'.toNat + n - 10)

/-- Digit expansion used by the hexadecimal formatter; `fuel := n + 1`. -/
def hexDigitsGo : Nat → Nat → List Char → List Char
  | 0, _, acc => acc
  | fuel + 1, n, acc =>
    if n < 16 then hexDigitChar n :: acc
    else hexDigitsGo fuel (n / 16) (hexDigitChar (n % 16) :: acc)

/-- Python format spec `04x` (as in `"{:04x}".format(n)`): lowercase
hexadecimal, zero-padded on the left to at least four characters. -/
def hex04 (n : Nat) : String :=
  let ds := hexDigitsGo (n + 1) n []
  String.mk (List.replicate (4 - ds.length) '0' ++ ds)

/-! ### The serial-number record and `DfuInfo.parse_serial`
(src/mcu_interface/dfu.py, lines 110-151) -/

/-- The dictionary returned by `DfuInfo.parse_serial`. -/
structure SerialRec where
  serial : String
  chip : String
  mcu_revision : Option Nat
  ble_serial : Option String
  ble_chip : Option String
  ble_revision : Option Nat
deriving Repr, DecidableEq

/-- `DfuInfo.parse_serial` (dfu.py lines 110-151).  Returns `none` where the
Python code raises (`IndexError` from a missing token index, `ValueError`
from a failing `int(_, 16)`).  `pySplit raw_serial " "` is the local
`raw_serial_split`, written out at each use. -/
def parse_serial (raw_serial : String) : Option SerialRec :=
  -- chip_rev = raw_serial_split[2].split(':'); chip/mcu_revision from it
  match (pySplit raw_serial " ")[2]? with
  | none => none
  | some tok2 =>
    match (if (pySplit tok2 ":").length > 1 then
             match (pySplit tok2 ":")[0]?, (pySplit tok2 ":")[1]? with
             | some c, some rs =>
               match hexToNat? rs with
               | some rv => some (c, some rv)
               | none => none
             | _, _ => none
           else some (tok2, (none : Option Nat))) with
    | none => none
    | some (chip, mcu_revision) =>
      -- ble fields present only with more than five space-separated tokens
      match (if (pySplit raw_serial " ").length > 5 then
               match (pySplit raw_serial " ")[4]?, (pySplit raw_serial " ")[6]? with
               | some bs, some tok6 =>
                 match (pySplit tok6 ":")[0]?, (pySplit tok6 ":")[1]? with
                 | some bc, some brs =>
                   match hexToNat? brs with
                   | some brv => some (some bs, some bc, some brv)
                   | none => none
                 | _, _ => none
               | _, _ => none
             else some ((none : Option String), (none : Option String),
               (none : Option Nat))) with
      | none => none
      | some (ble_serial, ble_chip, ble_revision) =>
        match (pySplit raw_serial " ")[0]? with
        | none => none
        | some s0 =>
          some { serial := s0, chip := chip, mcu_revision := mcu_revision,
                 ble_serial := ble_serial, ble_chip := ble_chip,
                 ble_revision := ble_revision }

/-! ### DFU interface records and `Dfu.__init__` (dfu.py lines 154-215) -/

/-- One `DfuInfo` record: the fields extracted from a single `Found DFU:`
line of `dfu-util --list` output (dfu.py lines 47-108).  Every field other
than `vid`/`pid` stays `None` when the line lacks it. -/
structure DfuInfo where
  vid : Nat
  pid : Nat
  ver : Option Nat
  devnum : Option Nat
  cfg : Option Nat
  intf : Option Nat
  path : Option String
  alt : Option Nat
  name : Option String
  serial : Option SerialRec
deriving Repr, DecidableEq

/-- Exceptions raised by the modelled dfu.py code paths. -/
inductive DfuErr where
  /-- `FileNotFoundError("No matching DFU devices were found.")` -/
  | noDeviceFound
  /-- `LookupError("More than one DFU device matched the criteria")` -/
  | ambiguousDevice
  /-- Python `TypeError` (subscripting `None`, or a library call missing a
  required argument) -/
  | typeError
  /-- Python `NameError` (an unbound name referenced at run time) -/
  | nameError
  /-- `IndexError` or `ValueError` escaping from parsing -/
  | valueError
deriving Repr, DecidableEq

/-- Python truthiness of an optional string: `None` and `""` are falsy. -/
def pyTruthyStr : Option String → Bool
  | none => false
  | some s => !s.isEmpty

/-- Python truthiness of an optional integer: `None` and `0` are falsy. -/
def pyTruthyNat : Option Nat → Bool
  | none => false
  | some n => !(n == 0)

/-- The second serial filter of the `Dfu.__init__` loop (dfu.py line 197):
`if ble_serial and ble_serial != intf.serial['ble_serial']: continue`.
`.ok false` means the record is skipped.  Subscripting a `None` serial is a
`TypeError`; a string always compares unequal to `None`. -/
def survivesBle (ble_serial : Option String) (r : DfuInfo) : Except DfuErr Bool :=
  if pyTruthyStr ble_serial then
    match r.serial with
    | none => .error .typeError
    | some sr =>
      match sr.ble_serial with
      | none => .ok false
      | some t => .ok (ble_serial == some t)
  else .ok true

/-- The first serial filter of the `Dfu.__init__` loop (dfu.py line 195):
`if serial and serial != intf.serial['serial']: continue`, chained with the
`ble_serial` filter.  `.ok true` means the record survives both filters. -/
def survives (serial ble_serial : Option String) (r : DfuInfo) : Except DfuErr Bool :=
  if pyTruthyStr serial then
    match r.serial with
    | none => .error .typeError
    | some sr =>
      if serial == some sr.serial then survivesBle ble_serial r else .ok false
  else survivesBle ble_serial r

/-- The `for intf in found_interfaces` loop of `Dfu.__init__` (dfu.py lines
191-212), with the running `path_found` and `filtered_interfaces` state made
explicit.  `path_found` starts as `None`; the `if not path_found` test is
Python truthiness, so both `None` and an empty path re-enter the
first-interface branch. -/
def dfuLoop (serial ble_serial : Option String) :
    Option String → List DfuInfo → List DfuInfo → Except DfuErr (List DfuInfo)
  | _, acc, [] => .ok acc
  | path_found, acc, intf :: rest =>
    match survives serial ble_serial intf with
    | .error e => .error e
    | .ok false => dfuLoop serial ble_serial path_found acc rest
    | .ok true =>
      if pyTruthyStr path_found = false then
        dfuLoop serial ble_serial intf.path (acc ++ [intf]) rest
      else if intf.path == path_found then
        dfuLoop serial ble_serial path_found (acc ++ [intf]) rest
      else
        .error .ambiguousDevice

/-- `Dfu.__init__` (dfu.py lines 165-215), starting from the
`found_interfaces` list built from the `dfu-util --list` output.  The
`path`/`vid`/`pid` parameters of the Python constructor only alter the
external `dfu-util` query command, never the algorithm applied to the
returned records, so they are not part of the model.  Returns the
`self.interfaces` list. -/
def dfuInit (found_interfaces : List DfuInfo) (serial ble_serial : Option String) :
    Except DfuErr (List DfuInfo) :=
  if found_interfaces.length = 0 then .error .noDeviceFound
  else dfuLoop serial ble_serial none [] found_interfaces

/-- Does the record pass both serial filters without raising? -/
def survivesOk (serial ble_serial : Option String) (r : DfuInfo) : Bool :=
  match survives serial ble_serial r with
  | .ok _ => true
  | .error _ => false

/-- Does the record survive both serial filters? -/
def passes (serial ble_serial : Option String) (r : DfuInfo) : Bool :=
  match survives serial ble_serial r with
  | .ok true => true
  | _ => false

/-- The records of a candidate list that survive the two serial filters. -/
def survivors (serial ble_serial : Option String) (l : List DfuInfo) : List DfuInfo :=
  l.filter (passes serial ble_serial)

/-- The path-grouping tail of the `Dfu.__init__` loop body (dfu.py lines
200-212) acting on the records that survived the filters; `dfuLoop` is
exactly this interleaved with the filters (proved below). -/
def pathLoop : Option String → List DfuInfo → List DfuInfo → Except DfuErr (List DfuInfo)
  | _, acc, [] => .ok acc
  | path_found, acc, intf :: rest =>
    if pyTruthyStr path_found = false then pathLoop intf.path (acc ++ [intf]) rest
    else if intf.path == path_found then pathLoop path_found (acc ++ [intf]) rest
    else .error .ambiguousDevice

/-! ### `Dfu.samba_bootloader` (dfu.py lines 360-432) -/

/-- Exceptions raised by `Dfu.samba_bootloader`. -/
inductive SambaErr where
  /-- `NotImplementedError("Not a valid vid:pid ...")` (line 377) -/
  | notImplementedVid
  /-- `NotImplementedError("Not implemented for ...")` (line 381) -/
  | notImplementedChip
  /-- `NotImplementedError("... Bootloader version is too old ...")` (line 397) -/
  | notImplementedRevision
  /-- Python `TypeError` -/
  | typeError
  /-- Python `ValueError` or `IndexError` -/
  | valueError
deriving Repr, DecidableEq

/-- The three `NotImplementedError` raises of `samba_bootloader` realise the
"UnsupportedDevice" entry of the specification error taxonomy. -/
def SambaErr.unsupported : SambaErr → Bool
  | .notImplementedVid => true
  | .notImplementedChip => true
  | .notImplementedRevision => true
  | _ => false

/-- One external command: the argv list handed to `subprocess.run`. -/
abbrev Cmd := List String

/-- dfu.py line 40. -/
def dfu_bin : String := "dfu-util"

/-- dfu.py line 41. -/
def dfu_suffix_bin : String := "dfu-suffix"

/-- The bytes written for one serial word:
`bytes(struct.unpack('4B', struct.pack('I', word)))` (dfu.py line 415),
i.e. the four little-endian bytes of a 32-bit word. -/
def leBytes (w : Nat) : List Nat :=
  [w % 256, w / 256 % 256, w / 65536 % 256, w / 16777216 % 256]

/-- `Dfu.samba_bootloader`, success section (dfu.py lines 406-432), reached
once every gate has passed.  The Python code runs two external commands:
`dfu-suffix --add` on the temporary file holding the byte-swapped serial
words, then the `dfu-util --download` boot-switch transmission.  The model
returns the bytes written to the temporary file together with those argv
lists, the file name standing in as `<tmpfile>`.  Raises are modelled as
errors: the `ValueError` from a non-hexadecimal serial word (line 410),
`struct.error` for an oversized word (line 415, dead because the words have
at most eight hexadecimal digits), and the `TypeError` `subprocess.run`
raises on a `None` path element (line 429). -/
def sambaTail (intf0 : DfuInfo) (sr : SerialRec) :
    Except SambaErr (List Nat × List Cmd) := do
  let vid := intf0.vid
  let pid := intf0.pid
  let serial := sr.serial
  -- serial_num = serial.split(' - ')[0]
  let serial_num ← match (pySplit serial " - ")[0]? with
    | none => throw SambaErr.valueError
    | some s => pure s
  -- serial_num_words = textwrap.wrap(serial_num, 8)
  let serial_num_words := pyWrap serial_num 8
  -- serial_num_words_int = [int(x, 16) for x in serial_num_words]
  let serial_num_words_int ← serial_num_words.mapM (fun w =>
    match hexToNat? w with
    | none => throw SambaErr.valueError
    | some n => pure n)
  -- tf.write(bytes(struct.unpack('4B', struct.pack('I', word)))) per word
  let bytes ← serial_num_words_int.foldlM (fun acc w =>
    if w < 4294967296 then pure (acc ++ leBytes w) else throw SambaErr.valueError)
    ([] : List Nat)
  let tfName := "<tmpfile>"
  let dfu_cmd₁ : Cmd := [dfu_suffix_bin, "--vid", hex04 vid, "--pid", hex04 pid,
    "--add", tfName]
  let p ← match intf0.path with
    | none => throw SambaErr.typeError
    | some p => pure p
  let dfu_cmd₂ : Cmd := [dfu_bin, "--alt", "0", "--device",
    Nat.repr vid ++ ":" ++ Nat.repr pid, "--path", p, "--download", tfName]
  pure (bytes, [dfu_cmd₁, dfu_cmd₂])

/-- `Dfu.samba_bootloader`, gate section (dfu.py lines 365-404): read the
interface fields (subscripting a `None` serial is an immediate `TypeError`,
line 369), then the vendor-id gate, the chip-family gate, and the
minimum-revision gate (`None < 1233` is a `TypeError`); on passing all
gates, run `sambaTail`. -/
def samba_bootloader (intf0 : DfuInfo) : Except SambaErr (List Nat × List Cmd) :=
  match intf0.serial with
  | none => .error .typeError
  | some sr =>
    if intf0.vid ≠ 0x308f then .error .notImplementedVid
    else if strContains sr.chip "sam4s" = false then .error .notImplementedChip
    else
      match intf0.ver with
      | none => .error .typeError
      | some revision =>
        if revision < 1233 then .error .notImplementedRevision
        else sambaTail intf0 sr

/-! ### `Dfu.from_udev` (dfu.py lines 224-280) -/

/-- A udev device as consumed by `Dfu.from_udev`: the parent attributes the
method reads. -/
structure UdevDev where
  rawSerial : String
  idVendor : String
  idProduct : String
deriving Repr, DecidableEq

/-- The per-device body of the `Dfu.from_udev` loop (dfu.py lines 248-262):
parse the raw serial string (exceptions propagate out of the method) and
apply the two serial filters.  `.ok none` means the device is filtered out,
`.ok (some _)` is the tuple the code appends to `found_devices`. -/
def fromUdevStep (serial ble_serial : Option String) (d : UdevDev) :
    Except DfuErr (Option (UdevDev × (String × String) × SerialRec)) :=
  match parse_serial d.rawSerial with
  | none => .error .valueError
  | some parsed =>
    -- if serial and serial != parsed_serial['serial']: continue
    if pyTruthyStr serial && (serial != some parsed.serial) then
      .ok none
    -- if ble_serial and ble_serial != parsed_serial['ble_serial']: continue
    -- (a string compares unequal to None)
    else if pyTruthyStr ble_serial &&
        (match parsed.ble_serial with
         | none => true
         | some t => ble_serial != some t) then
      .ok none
    else
      .ok (some (d, (d.idVendor, d.idProduct), parsed))

/-- The `for device in devices` collection loop of `Dfu.from_udev` (dfu.py
lines 247-262), accumulating `found_devices`. -/
def fromUdevLoop (serial ble_serial : Option String)
    (acc : List (UdevDev × (String × String) × SerialRec)) :
    List UdevDev →
      Except DfuErr (List (UdevDev × (String × String) × SerialRec))
  | [] => .ok acc
  | d :: rest =>
    match fromUdevStep serial ble_serial d with
    | .error e => .error e
    | .ok none => fromUdevLoop serial ble_serial acc rest
    | .ok (some x) => fromUdevLoop serial ble_serial (acc ++ [x]) rest

/-- `Dfu.from_udev` (dfu.py lines 224-280).  A truthy `vid` or `pid`
argument makes the code call `devices.match_attribute('idVendor')` with the
required value argument missing, a `TypeError` before any device is
examined.  The final `return cls(path, ...)` on the single-match path
references the name `path`, which is bound nowhere in the method, the
module, or the builtins, so at run time it raises `NameError` and the
constructor call is never made: the `Unit` success value is never
produced. -/
def from_udev (devices : List UdevDev) (vid pid : Option Nat)
    (serial ble_serial : Option String) : Except DfuErr Unit :=
  -- devices.match_attribute('idVendor') / ('idProduct'): the required value
  -- argument is missing, an immediate TypeError when the filter is truthy
  if pyTruthyNat vid then .error .typeError
  else if pyTruthyNat pid then .error .typeError
  else
    match fromUdevLoop serial ble_serial [] devices with
    | .error e => .error e
    | .ok found =>
      if found.length = 0 then .error .noDeviceFound
      else if found.length > 1 then .error .ambiguousDevice
      -- return cls(path, vid=dev[1][0], ...): the name `path` is unbound here
      else .error .nameError

/-! ### `BossaInfo` (bossa.py lines 37-115) -/

/-- The `BossaInfo` record fields (bossa.py lines 44-57), all `None` until a
line sets them. -/
structure BossaInfo where
  device : Option String
  version : Option String
  version_date : Option String
  address : Option Nat
  pages : Option Nat
  page_size : Option Nat
  total_size : Option Nat
  planes : Option Nat
  lock_region : Option Nat
  locked : Option String
  security : Option Bool
  boot_flash : Option Bool
  unique_id : Option String
deriving Repr, DecidableEq

/-- The freshly constructed record, every field `None`. -/
def BossaInfo.start : BossaInfo :=
  ⟨none, none, none, none, none, none, none, none, none, none, none, none, none⟩

/-- Exceptions raised by the modelled bossa.py code paths. -/
inductive BossaErr where
  /-- `IndexError` from `line.split(': ')[1]` on a separator-free line -/
  | indexError
  /-- `ValueError` from `int(...)` or from tuple unpacking -/
  | valueError
deriving Repr, DecidableEq

/-- `line.split(': ')[1]`: `IndexError` when the separator is absent. -/
def field1 (line : String) : Except BossaErr String :=
  match (pySplit line ": ")[1]? with
  | none => .error .indexError
  | some v => .ok v

/-- Lift an optional parse result into the bossa exception monad. -/
def toExc (e : BossaErr) : Option α → Except BossaErr α
  | none => .error e
  | some a => .ok a

/-- One iteration of the `BossaInfo.set` line loop (bossa.py lines 83-115),
acting on the record together with the list of lines warned about so far
(`logger.warning` on the final `else`).  The `elif` chain tests membership
(`'Device' in line` and so on) in source order. -/
def bossaLine (st : BossaInfo × List String) (line : String) :
    Except BossaErr (BossaInfo × List String) :=
  let r := st.1
  let w := st.2
  if strContains line "Device" then do
    let v ← field1 line
    pure ({ r with device := some v }, w)
  else if strContains line "Version" then do
    let v ← field1 line
    match pySplit1 v " " with
    | [a, b] => pure ({ r with version := some a, version_date := some b }, w)
    | _ => throw .valueError
  else if strContains line "Address" then do
    let v ← field1 line
    let n ← toExc .valueError (hexToNat? v)
    pure ({ r with address := some n }, w)
  else if strContains line "Pages" then do
    let v ← field1 line
    let n ← toExc .valueError (decToNat? v)
    pure ({ r with pages := some n }, w)
  else if strContains line "Page Size" then do
    let v ← field1 line
    let h ← toExc .indexError (pySplit1 v " ")[0]?
    let n ← toExc .valueError (decToNat? h)
    pure ({ r with page_size := some n }, w)
  else if strContains line "Total Size" then do
    let v ← field1 line
    if strContains v "KB" then do
      let h ← toExc .indexError (pySplit v "KB")[0]?
      let n ← toExc .valueError (decToNat? h)
      pure ({ r with total_size := some (n * 1024) }, w)
    else if strContains v "MB" then do
      let h ← toExc .indexError (pySplit v "MB")[0]?
      let n ← toExc .valueError (decToNat? h)
      pure ({ r with total_size := some (n * 1024 * 1024) }, w)
    else
      pure (r, w)
  else if strContains line "Planes" then do
    let v ← field1 line
    let n ← toExc .valueError (decToNat? v)
    pure ({ r with planes := some n }, w)
  else if strContains line "Lock Regions" then do
    let v ← field1 line
    let n ← toExc .valueError (decToNat? v)
    pure ({ r with lock_region := some n }, w)
  else if strContains line "Locked" then do
    let v ← field1 line
    pure ({ r with locked := some v }, w)
  else if strContains line "Security" then do
    let v ← field1 line
    pure ({ r with security := some (v == "true") }, w)
  else if strContains line "Boot Flash" then do
    let v ← field1 line
    pure ({ r with boot_flash := some (v == "true") }, w)
  else if strContains line "Unique Id" then do
    let v ← field1 line
    pure ({ r with unique_id := some v }, w)
  else if line == "" then
    pure (r, w)
  else
    pure (r, w ++ [line])

/-- The full line loop of `BossaInfo.set`: a monadic left fold of
`bossaLine` over the lines. -/
def bossaSetLines (st : BossaInfo × List String) (lines : List String) :
    Except BossaErr (BossaInfo × List String) :=
  lines.foldlM bossaLine st

/-- `BossaInfo.set` as called from the constructor (bossa.py lines 43-58,
77-115): split the `bossac --info` text on newlines and fold the line
parser over it, starting from the all-`None` record. -/
def bossaSet (bossac_output : String) : Except BossaErr (BossaInfo × List String) :=
  bossaSetLines (BossaInfo.start, []) (pySplit bossac_output "\n")

/-- The fixed set of labels the `BossaInfo.set` chain recognizes, in the
order of its `elif` tests. -/
def bossaLabels : List String :=
  ["Device", "Version", "Address", "Pages", "Page Size", "Total Size",
   "Planes", "Lock Regions", "Locked", "Security", "Boot Flash", "Unique Id"]

/-- The single field assignment a recognized `BossaInfo.set` line performs:
one constructor per label (`version` writes the version/date pair; `noSize`
is a `Total Size` line without a `KB`/`MB` suffix, which assigns nothing). -/
inductive FieldWrite where
  | device (v : String)
  | version (a b : String)
  | address (n : Nat)
  | pages (n : Nat)
  | pageSize (n : Nat)
  | totalSize (n : Nat)
  | noSize
  | planes (n : Nat)
  | lockRegion (n : Nat)
  | locked (v : String)
  | security (b : Bool)
  | bootFlash (b : Bool)
  | uniqueId (v : String)
deriving Repr, DecidableEq

/-- Apply a field write to the record. -/
def FieldWrite.apply : FieldWrite → BossaInfo → BossaInfo
  | .device v, r => { r with device := some v }
  | .version a b, r => { r with version := some a, version_date := some b }
  | .address n, r => { r with address := some n }
  | .pages n, r => { r with pages := some n }
  | .pageSize n, r => { r with page_size := some n }
  | .totalSize n, r => { r with total_size := some n }
  | .noSize, r => r
  | .planes n, r => { r with planes := some n }
  | .lockRegion n, r => { r with lock_region := some n }
  | .locked v, r => { r with locked := some v }
  | .security b, r => { r with security := some b }
  | .bootFlash b, r => { r with boot_flash := some b }
  | .uniqueId v, r => { r with unique_id := some v }

/-- The label a field write originates from, as a position in the `elif`
chain (`totalSize` and `noSize` share position 5: both are `Total Size`
lines). -/
def FieldWrite.idx : FieldWrite → Nat
  | .device _ => 0
  | .version _ _ => 1
  | .address _ => 2
  | .pages _ => 3
  | .pageSize _ => 4
  | .totalSize _ => 5
  | .noSize => 5
  | .planes _ => 6
  | .lockRegion _ => 7
  | .locked _ => 8
  | .security _ => 9
  | .bootFlash _ => 10
  | .uniqueId _ => 11

/-- Decode one line through the same `elif` chain as `bossaLine`: `some fw`
when the line is dispatched to a label and its value parses, `none` when the
line is empty, unrecognized, or its value fails to parse. -/
def decodeLine (line : String) : Option FieldWrite :=
  if strContains line "Device" then
    match (pySplit line ": ")[1]? with
    | some v => some (.device v)
    | none => none
  else if strContains line "Version" then
    match (pySplit line ": ")[1]? with
    | some v =>
      match pySplit1 v " " with
      | [a, b] => some (.version a b)
      | _ => none
    | none => none
  else if strContains line "Address" then
    match (pySplit line ": ")[1]? with
    | some v =>
      match hexToNat? v with
      | some n => some (.address n)
      | none => none
    | none => none
  else if strContains line "Pages" then
    match (pySplit line ": ")[1]? with
    | some v =>
      match decToNat? v with
      | some n => some (.pages n)
      | none => none
    | none => none
  else if strContains line "Page Size" then
    match (pySplit line ": ")[1]? with
    | some v =>
      match (pySplit1 v " ")[0]? with
      | some h =>
        match decToNat? h with
        | some n => some (.pageSize n)
        | none => none
      | none => none
    | none => none
  else if strContains line "Total Size" then
    match (pySplit line ": ")[1]? with
    | some v =>
      if strContains v "KB" then
        match (pySplit v "KB")[0]? with
        | some h =>
          match decToNat? h with
          | some n => some (.totalSize (n * 1024))
          | none => none
        | none => none
      else if strContains v "MB" then
        match (pySplit v "MB")[0]? with
        | some h =>
          match decToNat? h with
          | some n => some (.totalSize (n * 1024 * 1024))
          | none => none
        | none => none
      else some .noSize
    | none => none
  else if strContains line "Planes" then
    match (pySplit line ": ")[1]? with
    | some v =>
      match decToNat? v with
      | some n => some (.planes n)
      | none => none
    | none => none
  else if strContains line "Lock Regions" then
    match (pySplit line ": ")[1]? with
    | some v =>
      match decToNat? v with
      | some n => some (.lockRegion n)
      | none => none
    | none => none
  else if strContains line "Locked" then
    match (pySplit line ": ")[1]? with
    | some v => some (.locked v)
    | none => none
  else if strContains line "Security" then
    match (pySplit line ": ")[1]? with
    | some v => some (.security (v == "true"))
    | none => none
  else if strContains line "Boot Flash" then
    match (pySplit line ": ")[1]? with
    | some v => some (.bootFlash (v == "true"))
    | none => none
  else if strContains line "Unique Id" then
    match (pySplit line ": ")[1]? with
    | some v => some (.uniqueId v)
    | none => none
  else none

/-- The label position of a line, when it decodes. -/
def lineIdx (line : String) : Option Nat :=
  (decodeLine line).map FieldWrite.idx

/-- The pure effect of one decodable line on the record (identity on
undecodable lines). -/
def lineApply (r : BossaInfo) (l : String) : BossaInfo :=
  match decodeLine l with
  | some fw => fw.apply r
  | none => r

/-- The pure value of folding the decoded line effects over a block. -/
def applyFold (r : BossaInfo) (lines : List String) : BossaInfo :=
  lines.foldl lineApply r

/-- Each element doubled in place: `[a, b] ↦ [a, a, b, b]`. -/
def dbl : List α → List α
  | [] => []
  | a :: t => a :: a :: dbl t

/-! ### `Bossa.cmd` (bossa.py lines 190-233) -/

/-- `Bossa.cmd` (bossa.py lines 190-233): the sequence of `subprocess.run`
argv lists issued, in order.  Faithful to the source: the unlock alias
assignment at bossa.py line 209 makes the two Python names refer to the
same list object, so appending the unlock option also mutates the shared
list and the option persists into the final command; the model (which calls
that list bossa_run) threads the single shared list through accordingly. -/
def bossaCmd (bossa_cmd port : String) (file : Option String) (erase : Option Bool)
    (write boot_flash : Bool) (unlock_regions lock_regions : List Nat)
    (verify reset : Bool) : List Cmd :=
  let bossa_run : Cmd := [bossa_cmd, "--port", port]
  let (runs, bossa_run) :=
    if unlock_regions.length > 0 then
      let c := bossa_run ++
        ["--unlock=" ++ String.intercalate "," (unlock_regions.map Nat.repr)]
      ([c], c)
    else ([], bossa_run)
  let bossa_run :=
    if pyTruthyStr file then bossa_run ++ [file.getD ""] else bossa_run
  -- if erase or (file and write):
  let eraseFlag := (match erase with | some b => b | none => false) ||
    (pyTruthyStr file && write)
  let bossa_run := if eraseFlag then bossa_run ++ ["--erase"] else bossa_run
  let bossa_run := if write then bossa_run ++ ["--write"] else bossa_run
  let bossa_run :=
    if boot_flash then bossa_run ++ ["--boot=1"] else bossa_run ++ ["--boot=0"]
  let bossa_run :=
    if lock_regions.length > 0 then
      bossa_run ++ ["--lock=" ++ String.intercalate "," (lock_regions.map Nat.repr)]
    else bossa_run
  let bossa_run :=
    if verify && pyTruthyStr file then bossa_run ++ ["--verify"] else bossa_run
  let bossa_run := if reset then bossa_run ++ ["--reset"] else bossa_run
  runs ++ [bossa_run]

/-! ### Concrete fixtures for witnesses and counterexamples -/

/-- A parsed serial record of a supported sam4s device. -/
def srFix : SerialRec :=
  ⟨"5335310050464D4B3530343232333033", "sam4s4b", some 1251, none, none, none⟩

/-- A DFU interface record of a supported device (firmware revision 1300). -/
def intfFix : DfuInfo :=
  ⟨0x308f, 0x0021, some 1300, some 11, some 1, some 0, some "1-1.4", some 0,
   some "Kiibohd DFU", some srFix⟩

/-- `intfFix` with a firmware revision below the boot-switch minimum. -/
def intfOld : DfuInfo := { intfFix with ver := some 1000 }

/-- `intfFix` with the empty string as its physical path (a falsy path). -/
def intfEmptyPath : DfuInfo := { intfFix with path := some "" }

/-- `intfFix` on a different physical path. -/
def intfOtherPath : DfuInfo := { intfFix with path := some "1-1.9" }

/-- A udev device carrying a parseable composite serial. -/
def udevFix : UdevDev :=
  ⟨"5335310050464D4B3530343232333033 - sam4s4b:04E3", "308f", "0021"⟩

/-- A raw serial string with the secondary radio segment (seven tokens). -/
def rawBle : String :=
  "5335310050464D4B3530343232333033 - sam4s4b:04E3 | 697E97E3A186C5DF - nRF52810:0015"

/-- The record `rawBle` parses to. -/
def srBle : SerialRec :=
  ⟨"5335310050464D4B3530343232333033", "sam4s4b", some 1251,
   some "697E97E3A186C5DF", some "nRF52810", some 21⟩

end McuIntf

namespace McuIntf

/-! ## Claim theorems -/

/-- C1: `Dfu.samba_bootloader` raises one of its `NotImplementedError`s (the
specification's `UnsupportedDevice`) for every resolved interface carrying a
serial record whose firmware revision `ver` is below 1233, regardless of chip
family, and for every such interface whose chip field does not contain
`"sam4s"`, regardless of revision.  In both cases the result is an error, so
the function neither returns silently nor produces the boot-switch download
commands. -/
theorem samba_bootloader_gate (intf0 : DfuInfo) (sr : SerialRec)
    (hs : intf0.serial = some sr) :
    (∀ v, intf0.ver = some v → v < 1233 →
      ∃ e, samba_bootloader intf0 = .error e ∧ e.unsupported = true) ∧
    (strContains sr.chip "sam4s" = false →
      ∃ e, samba_bootloader intf0 = .error e ∧ e.unsupported = true) := by
  have hbody : samba_bootloader intf0 =
      (if intf0.vid ≠ 0x308f then .error .notImplementedVid
       else if strContains sr.chip "sam4s" = false then .error .notImplementedChip
       else
         match intf0.ver with
         | none => .error .typeError
         | some revision =>
           if revision < 1233 then .error .notImplementedRevision
           else sambaTail intf0 sr) := by
    unfold samba_bootloader
    rw [hs]
  constructor
  · intro v hv hlt
    rw [hbody, hv]
    by_cases h1 : intf0.vid = 0x308f
    · by_cases h2 : strContains sr.chip "sam4s" = false
      · exact ⟨.notImplementedChip, by simp [h1, h2], rfl⟩
      · exact ⟨.notImplementedRevision, by simp [h1, h2, hlt], rfl⟩
    · exact ⟨.notImplementedVid, by simp [h1], rfl⟩
  · intro h2
    rw [hbody]
    by_cases h1 : intf0.vid = 0x308f
    · exact ⟨.notImplementedChip, by simp [h1, h2], rfl⟩
    · exact ⟨.notImplementedVid, by simp [h1], rfl⟩

/-- C1 witness: the gate theorem applied to a concrete supported-family
device with firmware revision 1000 < 1233. -/
theorem samba_bootloader_gate_witness :
    ∃ e, samba_bootloader intfOld = .error e ∧ e.unsupported = true :=
  (samba_bootloader_gate intfOld srFix rfl).1 1000 rfl (by decide)

/-- C2 (code bug): the claim says a non-empty candidate set whose records are
all removed by the serial filter must raise `NoDeviceFound`; evaluating
`Dfu.__init__` at such an input shows it instead returns successfully with an
empty interface list, because the emptiness check (dfu.py line 185) runs on
the unfiltered list only and nothing re-checks after the filter loop. -/
theorem dfuInit_ok_empty_after_filter :
    dfuInit [intfFix] (some "OTHERSERIAL") none = .ok [] := by
  rfl

/-- C4 (code bug): with non-empty `unlock_regions`, `Bossa.cmd` does issue
the unlock option alone as a separate prior invocation, but the unlock
alias assignment (bossa.py line 209) aliases the two
Python lists, so the appended `--unlock=...` also persists into the main
(second) invocation, which the claim says must not contain it.  Evaluation at
the failing input `unlock_regions=[0]` with all other options off. -/
theorem bossaCmd_unlock_leak :
    bossaCmd "bossac" "/dev/ttyACM0" none none false false [0] [] false false =
      [["bossac", "--port", "/dev/ttyACM0", "--unlock=0"],
       ["bossac", "--port", "/dev/ttyACM0", "--unlock=0", "--boot=0"]] := by
  rfl

/-- C10: `Dfu.from_udev` never returns a constructed object: its result is
always an error.  With untruthy vid/pid filters and a clean collection loop,
zero matches raise `NoDeviceFound`, more than one match raises the ambiguity
`LookupError`, and exactly one match still errors, because the final
`cls(path, ...)` references the unbound name `path` (`NameError`). -/
theorem from_udev_always_errors (devices : List UdevDev) (vid pid : Option Nat)
    (serial ble_serial : Option String) :
    (from_udev devices vid pid serial ble_serial).isOk = false ∧
    (∀ found, pyTruthyNat vid = false → pyTruthyNat pid = false →
      fromUdevLoop serial ble_serial [] devices = .ok found →
      ((found.length = 0 →
         from_udev devices vid pid serial ble_serial = .error .noDeviceFound) ∧
       (found.length > 1 →
         from_udev devices vid pid serial ble_serial = .error .ambiguousDevice) ∧
       (found.length = 1 →
         from_udev devices vid pid serial ble_serial = .error .nameError))) := by
  constructor
  · unfold from_udev
    by_cases h1 : pyTruthyNat vid = true
    · simp [h1, Except.isOk, Except.toBool]
    · by_cases h2 : pyTruthyNat pid = true
      · simp [h1, h2, Except.isOk, Except.toBool]
      · simp only [Bool.not_eq_true] at h1 h2
        simp only [h1, h2, Bool.false_eq_true, if_false]
        match hloop : fromUdevLoop serial ble_serial [] devices with
        | .error e => simp [Except.isOk, Except.toBool]
        | .ok found =>
          by_cases h3 : found.length = 0
          · simp [h3, Except.isOk, Except.toBool]
          · by_cases h4 : found.length > 1
            · simp [h3, h4, Except.isOk, Except.toBool]
            · simp [h3, h4, Except.isOk, Except.toBool]
  · intro found h1 h2 hloop
    unfold from_udev
    rw [h1, h2, hloop]
    refine ⟨fun h0 => by simp [h0], fun hgt => ?_, fun heq => ?_⟩
    · have h0 : ¬ found.length = 0 := by omega
      simp [h0, hgt]
    · have h0 : ¬ found.length = 0 := by omega
      have hgt : ¬ found.length > 1 := by omega
      simp [h0, hgt]

/-- C10 witness: one matching udev device; the loop succeeds with exactly one
match and `from_udev` raises the `NameError` from the unbound `path`. -/
theorem from_udev_always_errors_witness :
    from_udev [udevFix] none none none none = .error .nameError :=
  ((from_udev_always_errors [udevFix] none none none none).2
    [(udevFix, ("308f", "0021"), srFix)] rfl rfl (by rfl)).2.2 (by rfl)

/-! ### C3: path grouping and the ambiguity error in `Dfu.__init__` -/

/-- On a list whose records all pass the filters without raising, the
`Dfu.__init__` loop equals the path-grouping loop over the survivors. -/
theorem dfuLoop_eq_pathLoop (serial ble_serial : Option String) (l : List DfuInfo) :
    ∀ pf acc, (∀ r ∈ l, survivesOk serial ble_serial r = true) →
    dfuLoop serial ble_serial pf acc l =
      pathLoop pf acc (survivors serial ble_serial l) := by
  induction l with
  | nil => intro pf acc _; rfl
  | cons r rs ih =>
    intro pf acc hgood
    have hr : survivesOk serial ble_serial r = true := hgood r (by simp)
    have hrest : ∀ x ∈ rs, survivesOk serial ble_serial x = true :=
      fun x hx => hgood x (by simp [hx])
    cases hsv : survives serial ble_serial r with
    | error e => simp [survivesOk, hsv] at hr
    | ok b =>
      cases b with
      | false =>
        have hp : passes serial ble_serial r = false := by simp [passes, hsv]
        simp only [dfuLoop, hsv, survivors, List.filter_cons, hp, if_false,
          Bool.false_eq_true]
        simpa [survivors] using ih pf acc hrest
      | true =>
        have hp : passes serial ble_serial r = true := by simp [passes, hsv]
        simp only [dfuLoop, hsv, survivors, List.filter_cons, hp, if_true]
        by_cases hpf : pyTruthyStr pf = false
        · simp only [hpf, if_true, pathLoop]
          simpa [survivors] using ih r.path (acc ++ [r]) hrest
        · simp only [pathLoop, hpf, if_false]
          by_cases heq : r.path == pf
          · simp only [heq, if_true]
            simpa [survivors] using ih pf (acc ++ [r]) hrest
          · simp only [heq, if_false]
            simp [hpf, heq]

/-- A truthy anchor path with every record on it: all retained, no error. -/
theorem pathLoop_same_truthy (p : Option String) (hp : pyTruthyStr p = true)
    (l : List DfuInfo) :
    ∀ acc, (∀ r ∈ l, r.path = p) → pathLoop p acc l = .ok (acc ++ l) := by
  induction l with
  | nil => intro acc _; simp [pathLoop]
  | cons r rs ih =>
    intro acc hall
    have hr : r.path = p := hall r (by simp)
    simp only [pathLoop, hp, hr]
    rw [ih (acc ++ [r]) (fun x hx => hall x (by simp [hx]))]
    simp

/-- Starting from a falsy anchor, a survivor list on a single shared path is
retained in full and never raises the ambiguity error. -/
theorem pathLoop_same (p : Option String) (l : List DfuInfo) :
    ∀ pf acc, pyTruthyStr pf = false → (∀ r ∈ l, r.path = p) →
    pathLoop pf acc l = .ok (acc ++ l) := by
  induction l with
  | nil => intro pf acc _ _; simp [pathLoop]
  | cons r rs ih =>
    intro pf acc hpf hall
    have hr : r.path = p := hall r (by simp)
    simp only [pathLoop, hpf, if_true]
    by_cases hp : pyTruthyStr p = true
    · rw [hr, pathLoop_same_truthy p hp rs (acc ++ [r])
        (fun x hx => hall x (by simp [hx]))]
      simp
    · rw [ih r.path (acc ++ [r]) (by simp [hr]; simpa using hp)
        (fun x hx => hall x (by simp [hx]))]
      simp

/-- Once a truthy anchor path is held, any later survivor on a different
path triggers the ambiguity error. -/
theorem pathLoop_truthy_err (p : Option String) (hp : pyTruthyStr p = true)
    (l : List DfuInfo) :
    ∀ acc b, b ∈ l → b.path ≠ p → pathLoop p acc l = .error .ambiguousDevice := by
  induction l with
  | nil => intro acc b hb _; exact absurd hb (List.not_mem_nil b)
  | cons r rs ih =>
    intro acc b hb hbp
    simp only [pathLoop, hp]
    by_cases heq : r.path == p
    · have hrp : r.path = p := by simpa using heq
      simp only [heq, if_true]
      have hbrs : b ∈ rs := by
        rcases List.mem_cons.mp hb with h | h
        · exact absurd (h ▸ hbp) (by simp [hrp])
        · exact h
      simp only [Bool.true_eq_false, if_false]
      exact ih (acc ++ [r]) b hbrs hbp
    · simp [heq]

/-- From a falsy anchor: a survivor with a truthy path followed anywhere
later by a survivor on a different path always raises the ambiguity error. -/
theorem pathLoop_falsy_err (a b : DfuInfo) (ha : pyTruthyStr a.path = true)
    (hab : b.path ≠ a.path) (l₂ l₃ : List DfuInfo) (l₁ : List DfuInfo) :
    ∀ pf acc, pyTruthyStr pf = false →
    pathLoop pf acc (l₁ ++ a :: (l₂ ++ b :: l₃)) = .error .ambiguousDevice := by
  induction l₁ with
  | nil =>
    intro pf acc hpf
    simp only [List.nil_append, pathLoop, hpf, if_true]
    exact pathLoop_truthy_err a.path ha (l₂ ++ b :: l₃) (acc ++ [a]) b (by simp) hab
  | cons r l₁' ih =>
    intro pf acc hpf
    simp only [List.cons_append, pathLoop, hpf, if_true]
    by_cases hrp : pyTruthyStr r.path = true
    · by_cases haa : a.path = r.path
      · exact pathLoop_truthy_err r.path hrp _ (acc ++ [r]) b (by simp) (haa ▸ hab)
      · exact pathLoop_truthy_err r.path hrp _ (acc ++ [r]) a (by simp) haa
    · exact ih r.path (acc ++ [r]) (by simpa using hrp)

/-- C3 counterexample: two records that both survive (no filters active) and
carry different physical paths — `""` and `"1-1.9"` — are both retained and
no `AmbiguousDevice` is raised, contrary to the claim, because the Python
truthiness test `if not path_found` treats the empty first path as "no path
seen yet" and re-enters the first-interface branch. -/
theorem dfuInit_distinct_paths_no_error :
    dfuInit [intfEmptyPath, intfOtherPath] none none =
      .ok [intfEmptyPath, intfOtherPath] ∧
    intfEmptyPath.path ≠ intfOtherPath.path := by
  constructor
  · rfl
  · decide

/-- C3 (amended): over any candidate set whose records pass the filters
without raising, (1) if all filter survivors share one physical path they
are all retained and no ambiguity error is raised; (2) whenever a filter
survivor whose path is present and non-empty (truthy) is followed by a
survivor on a different path, resolution raises `AmbiguousDevice`.  The
amendment restricts the claim's second half to a truthy earlier path: a
`None` or empty path re-arms the first-interface branch (see the
counterexample). -/
theorem dfu_resolve_path_grouping (found : List DfuInfo)
    (serial ble_serial : Option String)
    (hgood : ∀ r ∈ found, survivesOk serial ble_serial r = true)
    (hne : found ≠ []) :
    (∀ p, (∀ r ∈ survivors serial ble_serial found, r.path = p) →
      dfuInit found serial ble_serial = .ok (survivors serial ble_serial found)) ∧
    (∀ l₁ a l₂ b l₃,
      survivors serial ble_serial found = l₁ ++ a :: (l₂ ++ b :: l₃) →
      pyTruthyStr a.path = true → b.path ≠ a.path →
      dfuInit found serial ble_serial = .error .ambiguousDevice) := by
  have hlen : ¬ found.length = 0 := by
    simpa [List.length_eq_zero] using hne
  have hinit : dfuInit found serial ble_serial =
      pathLoop none [] (survivors serial ble_serial found) := by
    unfold dfuInit
    rw [if_neg hlen]
    exact dfuLoop_eq_pathLoop serial ble_serial found none [] hgood
  constructor
  · intro p hall
    rw [hinit, pathLoop_same p (survivors serial ble_serial found) none [] rfl hall]
    simp
  · intro l₁ a l₂ b l₃ hsep ha hab
    rw [hinit, hsep]
    exact pathLoop_falsy_err a b ha hab l₂ l₃ l₁ none [] rfl

/-- C3 witness: two survivors on the distinct truthy paths `"1-1.4"` and
`"1-1.9"`; the amended theorem yields the ambiguity error. -/
theorem dfu_resolve_path_grouping_witness :
    dfuInit [intfFix, intfOtherPath] none none = .error .ambiguousDevice :=
  (dfu_resolve_path_grouping [intfFix, intfOtherPath] none none
    (by decide) (by decide)).2 [] intfFix [] intfOtherPath [] (by rfl)
    (by decide) (by decide)

/-! ### C5 and C6: `parse_serial` field placement -/

/-- C5: for every raw serial string accepted by `parse_serial`, the returned
record has `ble_serial`, `ble_chip` and `ble_revision` all present iff the
string has at least six space-separated tokens; and in that case
`ble_serial` is the token at index 4 while `ble_chip` and the hexadecimal
`ble_revision` come from the `radiochip:hexrev` token at index 6. -/
theorem parse_serial_ble_fields (raw : String) (r : SerialRec)
    (h : parse_serial raw = some r) :
    ((r.ble_serial.isSome ∧ r.ble_chip.isSome ∧ r.ble_revision.isSome) ↔
      6 ≤ (pySplit raw " ").length) ∧
    (6 ≤ (pySplit raw " ").length →
      r.ble_serial = (pySplit raw " ")[4]? ∧
      ∃ tok, (pySplit raw " ")[6]? = some tok ∧
        r.ble_chip = (pySplit tok ":")[0]? ∧
        ∃ hx, (pySplit tok ":")[1]? = some hx ∧ r.ble_revision = hexToNat? hx) := by
  unfold parse_serial at h
  split at h
  next => simp at h
  next tok2 htok2 =>
    split at h
    next => simp at h
    next chip mcu hcm =>
      split at h
      next => simp at h
      next bs bc br hbbb =>
        split at h
        next => simp at h
        next s0 hs0 =>
          simp only [Option.some.injEq] at h
          subst h
          by_cases h5 : (pySplit raw " ").length > 5
          · rw [if_pos h5] at hbbb
            cases h4 : (pySplit raw " ")[4]? with
            | none => rw [h4] at hbbb; simp at hbbb
            | some bsv =>
              cases h6 : (pySplit raw " ")[6]? with
              | none => rw [h4, h6] at hbbb; simp at hbbb
              | some tok6 =>
                rw [h4, h6] at hbbb
                dsimp only at hbbb
                cases h60 : (pySplit tok6 ":")[0]? with
                | none => rw [h60] at hbbb; simp at hbbb
                | some bcv =>
                  cases h61 : (pySplit tok6 ":")[1]? with
                  | none => rw [h60, h61] at hbbb; simp at hbbb
                  | some brs =>
                    rw [h60, h61] at hbbb
                    dsimp only at hbbb
                    cases hhx : hexToNat? brs with
                    | none => rw [hhx] at hbbb; simp at hbbb
                    | some brv =>
                      rw [hhx] at hbbb
                      dsimp only at hbbb
                      simp only [Option.some.injEq, Prod.mk.injEq] at hbbb
                      obtain ⟨hbs, hbc, hbr⟩ := hbbb
                      subst hbs hbc hbr
                      constructor
                      · constructor
                        · intro _; omega
                        · intro _; simp
                      · intro _
                        exact ⟨rfl, tok6, rfl, h60.symm, brs, h61, hhx.symm⟩
          · rw [if_neg h5] at hbbb
            simp only [Option.some.injEq, Prod.mk.injEq] at hbbb
            obtain ⟨hbs, hbc, hbr⟩ := hbbb
            subst hbs hbc hbr
            constructor
            · constructor
              · rintro ⟨hf, -, -⟩; simp at hf
              · intro hlen; omega
            · intro hlen; omega

/-- C5 witness: the seven-token serial `rawBle`; its record has the ble
fields present and `ble_serial` equal to the token at index 4. -/
theorem parse_serial_ble_fields_witness :
    6 ≤ (pySplit rawBle " ").length ∧ srBle.ble_serial = (pySplit rawBle " ")[4]? :=
  ⟨by decide, ((parse_serial_ble_fields rawBle srBle (by rfl)).2 (by decide)).1⟩

/-- C6: the serial string `"5335310050464D4B3530343232333033 - sam4s4b:04E3"`
parses to exactly serial = `"5335310050464D4B3530343232333033"`,
chip = `"sam4s4b"`, mcu_revision = `0x04E3`, with all ble fields `None`;
and in general, for every accepted serial string, absent optional segments
yield `None`: fewer than six tokens leave all three ble fields `None`, and a
chip token without a `":"` suffix leaves `mcu_revision` `None` — never a
default of `0` or an empty string. -/
theorem parse_serial_absent_segments :
    parse_serial "5335310050464D4B3530343232333033 - sam4s4b:04E3" =
      some ⟨"5335310050464D4B3530343232333033", "sam4s4b", some 0x04E3,
        none, none, none⟩ ∧
    ∀ raw r, parse_serial raw = some r →
      ((pySplit raw " ").length ≤ 5 →
        r.ble_serial = none ∧ r.ble_chip = none ∧ r.ble_revision = none) ∧
      (∀ tok2, (pySplit raw " ")[2]? = some tok2 →
        (pySplit tok2 ":").length ≤ 1 → r.mcu_revision = none) := by
  constructor
  · rfl
  · intro raw r h
    unfold parse_serial at h
    split at h
    next => simp at h
    next tok2 htok2 =>
      split at h
      next => simp at h
      next chip mcu hcm =>
        split at h
        next => simp at h
        next bs bc br hbbb =>
          split at h
          next => simp at h
          next s0 hs0 =>
            simp only [Option.some.injEq] at h
            subst h
            constructor
            · intro hlen
              have h5 : ¬ (pySplit raw " ").length > 5 := by omega
              rw [if_neg h5] at hbbb
              simp only [Option.some.injEq, Prod.mk.injEq] at hbbb
              obtain ⟨hbs, hbc, hbr⟩ := hbbb
              exact ⟨hbs.symm, hbc.symm, hbr.symm⟩
            · intro tok2' htok2' hcol
              rw [htok2] at htok2'
              obtain rfl : tok2 = tok2' := by simpa using htok2'
              have hgt : ¬ (pySplit tok2 ":").length > 1 := by omega
              rw [if_neg hgt] at hcm
              simp only [Option.some.injEq, Prod.mk.injEq] at hcm
              exact hcm.2.symm

/-- C6 witness: the three-token revision-free serial `"S - sam4s4b"`; its
accepted record leaves `mcu_revision` and the ble fields `None`. -/
theorem parse_serial_absent_segments_witness :
    parse_serial "S - sam4s4b" = some ⟨"S", "sam4s4b", none, none, none, none⟩ ∧
    (⟨"S", "sam4s4b", none, none, none, none⟩ : SerialRec).mcu_revision = none :=
  ⟨by rfl,
   (parse_serial_absent_segments.2 "S - sam4s4b" _ (by rfl)).2 "sam4s4b"
     (by rfl) (by decide)⟩

/-! ### C7, C8, C9: the `BossaInfo.set` line parser -/

/-- Binding a successful `Except` computation. -/
theorem exc_ok_bind {ε α β : Type} (a : α) (f : α → Except ε β) :
    (Except.ok a >>= f : Except ε β) = f a := rfl

/-- Binding a failed `Except` computation. -/
theorem exc_error_bind {ε α β : Type} (e : ε) (f : α → Except ε β) :
    ((Except.error e : Except ε α) >>= f : Except ε β) = Except.error e := rfl

/-- C7: every non-empty info line in which none of the recognized labels
occurs is only logged as a warning and does not fail parsing: the step
returns successfully, leaves every field of the record unchanged, and
appends the line to the warning list. -/
theorem bossaLine_unknown_warns (r : BossaInfo) (w : List String) (line : String)
    (hne : line ≠ "")
    (hlab : ∀ lab ∈ bossaLabels, strContains line lab = false) :
    bossaLine (r, w) line = .ok (r, w ++ [line]) := by
  have h0 := hlab "Device" (by simp [bossaLabels])
  have h1 := hlab "Version" (by simp [bossaLabels])
  have h2 := hlab "Address" (by simp [bossaLabels])
  have h3 := hlab "Pages" (by simp [bossaLabels])
  have h4 := hlab "Page Size" (by simp [bossaLabels])
  have h5 := hlab "Total Size" (by simp [bossaLabels])
  have h6 := hlab "Planes" (by simp [bossaLabels])
  have h7 := hlab "Lock Regions" (by simp [bossaLabels])
  have h8 := hlab "Security" (by simp [bossaLabels])
  have h9 := hlab "Locked" (by simp [bossaLabels])
  have h10 := hlab "Boot Flash" (by simp [bossaLabels])
  have h11 := hlab "Unique Id" (by simp [bossaLabels])
  simp only [bossaLine, h0, h1, h2, h3, h4, h5, h6, h7, h8, h9, h10, h11,
    Bool.false_eq_true, if_false, beq_iff_eq, hne, ite_false]
  rfl

/-- C7 witness: the unknown line `"Flash Area: 2"` on the fresh record. -/
theorem bossaLine_unknown_warns_witness :
    bossaLine (BossaInfo.start, []) "Flash Area: 2" =
      .ok (BossaInfo.start, ["Flash Area: 2"]) :=
  bossaLine_unknown_warns BossaInfo.start [] "Flash Area: 2" (by decide) (by decide)

set_option maxHeartbeats 1000000 in
/-- A line that decodes acts on the state exactly by its field write: the
`bossaLine` step succeeds, rewrites the one field group, and leaves the
warning list alone. -/
theorem bossaLine_decode (line : String) (fw : FieldWrite)
    (hd : decodeLine line = some fw) (r : BossaInfo) (w : List String) :
    bossaLine (r, w) line = .ok (fw.apply r, w) := by
  unfold decodeLine at hd
  unfold bossaLine
  by_cases c0 : strContains line "Device" = true
  · rw [if_pos c0] at hd ⊢
    cases hv : (pySplit line ": ")[1]? with
    | none => rw [hv] at hd; simp at hd
    | some v =>
      rw [hv] at hd
      simp only [Option.some.injEq] at hd
      subst hd
      simp only [field1, hv, exc_ok_bind, FieldWrite.apply]
      rfl
  · rw [if_neg c0] at hd ⊢
    by_cases c1 : strContains line "Version" = true
    · rw [if_pos c1] at hd ⊢
      cases hv : (pySplit line ": ")[1]? with
      | none => rw [hv] at hd; simp at hd
      | some v =>
        rw [hv] at hd
        dsimp only at hd
        cases hsp : pySplit1 v " " with
        | nil => rw [hsp] at hd; simp at hd
        | cons a rest =>
          cases rest with
          | nil => rw [hsp] at hd; simp at hd
          | cons b rest2 =>
            cases rest2 with
            | cons x xs => rw [hsp] at hd; simp at hd
            | nil =>
              rw [hsp] at hd
              simp only [Option.some.injEq] at hd
              subst hd
              simp only [field1, hv, exc_ok_bind, hsp, FieldWrite.apply]
              rfl
    · rw [if_neg c1] at hd ⊢
      by_cases c2 : strContains line "Address" = true
      · rw [if_pos c2] at hd ⊢
        cases hv : (pySplit line ": ")[1]? with
        | none => rw [hv] at hd; simp at hd
        | some v =>
          rw [hv] at hd
          dsimp only at hd
          cases hn : hexToNat? v with
          | none => rw [hn] at hd; simp at hd
          | some n =>
            rw [hn] at hd
            simp only [Option.some.injEq] at hd
            subst hd
            simp only [field1, hv, exc_ok_bind, toExc, hn, FieldWrite.apply]
            rfl
      · rw [if_neg c2] at hd ⊢
        by_cases c3 : strContains line "Pages" = true
        · rw [if_pos c3] at hd ⊢
          cases hv : (pySplit line ": ")[1]? with
          | none => rw [hv] at hd; simp at hd
          | some v =>
            rw [hv] at hd
            dsimp only at hd
            cases hn : decToNat? v with
            | none => rw [hn] at hd; simp at hd
            | some n =>
              rw [hn] at hd
              simp only [Option.some.injEq] at hd
              subst hd
              simp only [field1, hv, exc_ok_bind, toExc, hn, FieldWrite.apply]
              rfl
        · rw [if_neg c3] at hd ⊢
          by_cases c4 : strContains line "Page Size" = true
          · rw [if_pos c4] at hd ⊢
            cases hv : (pySplit line ": ")[1]? with
            | none => rw [hv] at hd; simp at hd
            | some v =>
              rw [hv] at hd
              dsimp only at hd
              cases hh : (pySplit1 v " ")[0]? with
              | none => rw [hh] at hd; simp at hd
              | some h0 =>
                rw [hh] at hd
                dsimp only at hd
                cases hn : decToNat? h0 with
                | none => rw [hn] at hd; simp at hd
                | some n =>
                  rw [hn] at hd
                  simp only [Option.some.injEq] at hd
                  subst hd
                  simp only [field1, hv, exc_ok_bind, toExc, hh, hn, FieldWrite.apply]
                  rfl
          · rw [if_neg c4] at hd ⊢
            by_cases c5 : strContains line "Total Size" = true
            · rw [if_pos c5] at hd ⊢
              cases hv : (pySplit line ": ")[1]? with
              | none => rw [hv] at hd; simp at hd
              | some v =>
                rw [hv] at hd
                dsimp only at hd
                by_cases hkb : strContains v "KB" = true
                · rw [if_pos hkb] at hd
                  cases hh : (pySplit v "KB")[0]? with
                  | none => rw [hh] at hd; simp at hd
                  | some h0 =>
                    rw [hh] at hd
                    dsimp only at hd
                    cases hn : decToNat? h0 with
                    | none => rw [hn] at hd; simp at hd
                    | some n =>
                      rw [hn] at hd
                      simp only [Option.some.injEq] at hd
                      subst hd
                      simp only [field1, hv, exc_ok_bind]
                      rw [if_pos hkb]
                      simp only [toExc, hh, hn, exc_ok_bind, FieldWrite.apply]
                      rfl
                · rw [if_neg hkb] at hd
                  by_cases hmb : strContains v "MB" = true
                  · rw [if_pos hmb] at hd
                    cases hh : (pySplit v "MB")[0]? with
                    | none => rw [hh] at hd; simp at hd
                    | some h0 =>
                      rw [hh] at hd
                      dsimp only at hd
                      cases hn : decToNat? h0 with
                      | none => rw [hn] at hd; simp at hd
                      | some n =>
                        rw [hn] at hd
                        simp only [Option.some.injEq] at hd
                        subst hd
                        simp only [field1, hv, exc_ok_bind]
                        rw [if_neg hkb, if_pos hmb]
                        simp only [toExc, hh, hn, exc_ok_bind, FieldWrite.apply]
                        rfl
                  · rw [if_neg hmb] at hd
                    simp only [Option.some.injEq] at hd
                    subst hd
                    simp only [field1, hv, exc_ok_bind]
                    rw [if_neg hkb, if_neg hmb]
                    simp only [FieldWrite.apply]
                    rfl
            · rw [if_neg c5] at hd ⊢
              by_cases c6 : strContains line "Planes" = true
              · rw [if_pos c6] at hd ⊢
                cases hv : (pySplit line ": ")[1]? with
                | none => rw [hv] at hd; simp at hd
                | some v =>
                  rw [hv] at hd
                  dsimp only at hd
                  cases hn : decToNat? v with
                  | none => rw [hn] at hd; simp at hd
                  | some n =>
                    rw [hn] at hd
                    simp only [Option.some.injEq] at hd
                    subst hd
                    simp only [field1, hv, exc_ok_bind, toExc, hn, FieldWrite.apply]
                    rfl
              · rw [if_neg c6] at hd ⊢
                by_cases c7 : strContains line "Lock Regions" = true
                · rw [if_pos c7] at hd ⊢
                  cases hv : (pySplit line ": ")[1]? with
                  | none => rw [hv] at hd; simp at hd
                  | some v =>
                    rw [hv] at hd
                    dsimp only at hd
                    cases hn : decToNat? v with
                    | none => rw [hn] at hd; simp at hd
                    | some n =>
                      rw [hn] at hd
                      simp only [Option.some.injEq] at hd
                      subst hd
                      simp only [field1, hv, exc_ok_bind, toExc, hn, FieldWrite.apply]
                      rfl
                · rw [if_neg c7] at hd ⊢
                  by_cases c8 : strContains line "Locked" = true
                  · rw [if_pos c8] at hd ⊢
                    cases hv : (pySplit line ": ")[1]? with
                    | none => rw [hv] at hd; simp at hd
                    | some v =>
                      rw [hv] at hd
                      simp only [Option.some.injEq] at hd
                      subst hd
                      simp only [field1, hv, exc_ok_bind, FieldWrite.apply]
                      rfl
                  · rw [if_neg c8] at hd ⊢
                    by_cases c9 : strContains line "Security" = true
                    · rw [if_pos c9] at hd ⊢
                      cases hv : (pySplit line ": ")[1]? with
                      | none => rw [hv] at hd; simp at hd
                      | some v =>
                        rw [hv] at hd
                        simp only [Option.some.injEq] at hd
                        subst hd
                        simp only [field1, hv, exc_ok_bind, FieldWrite.apply]
                        rfl
                    · rw [if_neg c9] at hd ⊢
                      by_cases c10 : strContains line "Boot Flash" = true
                      · rw [if_pos c10] at hd ⊢
                        cases hv : (pySplit line ": ")[1]? with
                        | none => rw [hv] at hd; simp at hd
                        | some v =>
                          rw [hv] at hd
                          simp only [Option.some.injEq] at hd
                          subst hd
                          simp only [field1, hv, exc_ok_bind, FieldWrite.apply]
                          rfl
                      · rw [if_neg c10] at hd ⊢
                        by_cases c11 : strContains line "Unique Id" = true
                        · rw [if_pos c11] at hd ⊢
                          cases hv : (pySplit line ": ")[1]? with
                          | none => rw [hv] at hd; simp at hd
                          | some v =>
                            rw [hv] at hd
                            simp only [Option.some.injEq] at hd
                            subst hd
                            simp only [field1, hv, exc_ok_bind, FieldWrite.apply]
                            rfl
                        · rw [if_neg c11] at hd ⊢
                          simp at hd

/-- Field writes with distinct chain positions touch disjoint fields, so
they commute. -/
theorem FieldWrite.apply_comm (fx fy : FieldWrite) (h : fx.idx ≠ fy.idx)
    (r : BossaInfo) : fx.apply (fy.apply r) = fy.apply (fx.apply r) := by
  cases fx <;> cases fy <;> first | rfl | exact absurd rfl h

/-- A field write overwrites: applying it twice equals applying it once. -/
theorem FieldWrite.apply_overwrite (fw : FieldWrite) (r : BossaInfo) :
    fw.apply (fw.apply r) = fw.apply r := by
  cases fw <;> rfl

/-- Lines dispatched to different labels commute as record effects. -/
theorem lineApply_comm (x y : String) (hxy : lineIdx x ≠ lineIdx y)
    (r : BossaInfo) : lineApply (lineApply r x) y = lineApply (lineApply r y) x := by
  unfold lineIdx at hxy
  unfold lineApply
  cases hx : decodeLine x with
  | none =>
    cases hy : decodeLine y with
    | none => rfl
    | some fy => rfl
  | some fx =>
    cases hy : decodeLine y with
    | none => rfl
    | some fy =>
      have hij : fy.idx ≠ fx.idx := by
        intro hh
        exact hxy (by rw [hx, hy]; simp [hh])
      exact FieldWrite.apply_comm fy fx hij r

/-- Re-processing the same line is idempotent on the record. -/
theorem lineApply_overwrite (a : String) (r : BossaInfo) :
    lineApply (lineApply r a) a = lineApply r a := by
  unfold lineApply
  cases hx : decodeLine a with
  | none => rfl
  | some fw => exact FieldWrite.apply_overwrite fw r

/-- On a block of decodable lines the `BossaInfo.set` fold succeeds and its
record is the pure fold of the decoded field writes, with no warnings
added. -/
theorem bossaSetLines_decode (lines : List String) :
    ∀ (r : BossaInfo) (w : List String), (∀ l ∈ lines, (decodeLine l).isSome) →
    bossaSetLines (r, w) lines = .ok (applyFold r lines, w) := by
  induction lines with
  | nil => intro r w _; rfl
  | cons l ls ih =>
    intro r w hval
    have hl := hval l (by simp)
    obtain ⟨fw, hfw⟩ := Option.isSome_iff_exists.mp hl
    have hstep := bossaLine_decode l fw hfw r w
    have happ : applyFold r (l :: ls) = applyFold (fw.apply r) ls := by
      simp [applyFold, lineApply, hfw]
    show bossaSetLines (r, w) (l :: ls) = _
    unfold bossaSetLines
    rw [List.foldlM_cons, hstep, exc_ok_bind, happ]
    exact ih (fw.apply r) w (fun x hx => hval x (by simp [hx]))

/-- A list followed by itself is a permutation of the element-doubled list. -/
theorem dbl_perm (l : List String) : (l ++ l).Perm (dbl l) := by
  induction l with
  | nil => simp [dbl]
  | cons a t ih =>
    simp only [List.cons_append, dbl]
    refine List.Perm.cons a ?_
    exact List.perm_middle.trans (List.Perm.cons a ih)

/-- Folding the doubled list equals folding the list once (each duplicated
line overwrites its own write). -/
theorem applyFold_dbl (l : List String) : ∀ r, applyFold r (dbl l) = applyFold r l := by
  induction l with
  | nil => intro r; rfl
  | cons a t ih =>
    intro r
    simp only [dbl, applyFold, List.foldl_cons]
    rw [lineApply_overwrite]
    exact ih (lineApply r a)

/-- C8: the programmer-info parser is order-independent and idempotent over
a valid labeled block: for lines that each decode to a recognized label, the
labels pairwise distinct, parsing any permutation of the lines yields the
same state, the parse succeeds with the pure fold of the field writes, and
parsing the same block again from the resulting record reproduces it. -/
theorem bossa_info_block_perm_idem (lines lines' : List String)
    (r : BossaInfo) (w : List String)
    (hval : ∀ l ∈ lines, (decodeLine l).isSome)
    (hdist : ∀ x ∈ lines, ∀ y ∈ lines, x ≠ y → lineIdx x ≠ lineIdx y)
    (hperm : lines.Perm lines') :
    bossaSetLines (r, w) lines = bossaSetLines (r, w) lines' ∧
    bossaSetLines (r, w) lines = .ok (applyFold r lines, w) ∧
    bossaSetLines (applyFold r lines, w) lines = .ok (applyFold r lines, w) := by
  have hval' : ∀ l ∈ lines', (decodeLine l).isSome :=
    fun l hl => hval l (hperm.mem_iff.mpr hl)
  have comm : ∀ x ∈ lines, ∀ y ∈ lines, ∀ z,
      lineApply (lineApply z x) y = lineApply (lineApply z y) x := by
    intro x hx y hy z
    by_cases hxy : x = y
    · subst hxy; rfl
    · exact lineApply_comm x y (hdist x hx y hy hxy) z
  have hfold : applyFold r lines = applyFold r lines' := hperm.foldl_eq' comm r
  have h1 := bossaSetLines_decode lines r w hval
  have h1' := bossaSetLines_decode lines' r w hval'
  refine ⟨by rw [h1, h1', hfold], h1, ?_⟩
  have comm2 : ∀ x ∈ lines ++ lines, ∀ y ∈ lines ++ lines, ∀ z,
      lineApply (lineApply z x) y = lineApply (lineApply z y) x := by
    intro x hx y hy z
    exact comm x (by rcases List.mem_append.mp hx with h | h <;> exact h)
      y (by rcases List.mem_append.mp hy with h | h <;> exact h) z
  have hdblfold : applyFold r (lines ++ lines) = applyFold r (dbl lines) :=
    (dbl_perm lines).foldl_eq' comm2 r
  have hidem : applyFold (applyFold r lines) lines = applyFold r lines := by
    have hsplit : applyFold (applyFold r lines) lines = applyFold r (lines ++ lines) := by
      simp [applyFold, List.foldl_append]
    rw [hsplit, hdblfold, applyFold_dbl]
  rw [bossaSetLines_decode lines (applyFold r lines) w hval, hidem]

/-- C8 witness: a concrete two-line block and its reversal parse to the same
state. -/
theorem bossa_info_block_perm_idem_witness :
    bossaSetLines (BossaInfo.start, []) ["Device: X", "Pages: 16"] =
      bossaSetLines (BossaInfo.start, []) ["Pages: 16", "Device: X"] :=
  (bossa_info_block_perm_idem ["Device: X", "Pages: 16"]
    ["Pages: 16", "Device: X"] BossaInfo.start []
    (by decide) (by decide) (by decide)).1

/-! ### Character-level lemmas about the Python string primitives,
used to settle C9 symbolically. -/

/-- A boolean prefix is a subset. -/
theorem isPrefixOfMem : ∀ (l₁ l₂ : List Char), l₁.isPrefixOf l₂ = true →
    ∀ c ∈ l₁, c ∈ l₂
  | [], _, _, c, hc => absurd hc (List.not_mem_nil c)
  | a :: as, [], h, _, _ => by simp [List.isPrefixOf] at h
  | a :: as, b :: bs, h, c, hc => by
    simp only [List.isPrefixOf, Bool.and_eq_true, beq_iff_eq] at h
    obtain ⟨rfl, h2⟩ := h
    rcases List.mem_cons.mp hc with rfl | hc'
    · exact List.mem_cons_self c bs
    · exact List.mem_cons_of_mem _ (isPrefixOfMem as bs h2 c hc')

/-- A list is a boolean prefix of itself followed by anything. -/
theorem isPrefixOfAppendSelf : ∀ (l t : List Char), l.isPrefixOf (l ++ t) = true
  | [], _ => by simp [List.isPrefixOf]
  | a :: as, t => by simp [List.isPrefixOf, isPrefixOfAppendSelf as t]

/-- A pattern containing a character the haystack lacks never occurs. -/
theorem containsChFalse (pat hay : List Char) (c : Char) (hcp : c ∈ pat)
    (hch : c ∉ hay) : containsCh pat hay = false := by
  induction hay with
  | nil =>
    cases pat with
    | nil => exact absurd hcp (List.not_mem_nil c)
    | cons p ps => rfl
  | cons b bs ih =>
    have h1 : pat.isPrefixOf (b :: bs) = false := by
      cases hp : pat.isPrefixOf (b :: bs)
      · rfl
      · exact absurd (isPrefixOfMem pat (b :: bs) hp c hcp) hch
    simp only [containsCh, h1, Bool.false_or]
    exact ih (fun hm => hch (List.mem_cons_of_mem _ hm))

/-- A literal occurrence of the pattern makes the containment test true. -/
theorem containsChAppend (pat : List Char) :
    ∀ (l₁ l₂ : List Char), containsCh pat (l₁ ++ (pat ++ l₂)) = true := by
  intro l₁
  induction l₁ with
  | nil =>
    intro l₂
    cases pat with
    | nil =>
      cases l₂ with
      | nil => rfl
      | cons c cs => simp [containsCh, List.isPrefixOf]
    | cons p ps =>
      have hp := isPrefixOfAppendSelf (p :: ps) l₂
      simp only [List.nil_append, List.cons_append, containsCh] at hp ⊢
      simp [hp]
  | cons a t ih =>
    intro l₂
    simp only [List.cons_append, containsCh, List.append_eq, ih, Bool.or_true]

/-- Every character consumed by a successful digit fold is a digit. -/
theorem digitsValGo_isSome (digit? : Char → Option Nat) (base : Nat) :
    ∀ (cs : List Char) (acc n : Nat), digitsValGo digit? base acc cs = some n →
      ∀ c ∈ cs, (digit? c).isSome := by
  intro cs
  induction cs with
  | nil => intro acc n _ c hc; exact absurd hc (List.not_mem_nil c)
  | cons a t ih =>
    intro acc n h c hc
    cases hda : digit? a with
    | none => simp [digitsValGo, hda] at h
    | some d =>
      rcases List.mem_cons.mp hc with rfl | hc'
      · simp [hda]
      · simp only [digitsValGo, hda] at h
        exact ih (acc * base + d) n h c hc'

/-- A string accepted by the decimal parser consists of decimal digits. -/
theorem decToNatDigits (s : String) (n : Nat) (h : decToNat? s = some n) :
    ∀ c ∈ s.toList, (decDigit? c).isSome := by
  unfold decToNat? at h
  by_cases he : s.toList.isEmpty = true
  · rw [if_pos he] at h; simp at h
  · rw [if_neg he] at h
    exact digitsValGo_isSome decDigit? 10 s.toList 0 n h

/-- A non-digit character does not occur in an accepted decimal string. -/
theorem notMemDigits (s : String) (n : Nat) (h : decToNat? s = some n)
    (c : Char) (hc : decDigit? c = none) : c ∉ s.toList :=
  fun hm => by
    have hs := decToNatDigits s n h c hm
    rw [hc] at hs
    simp at hs

/-- The split recursion is independent of the fuel, once sufficient. -/
theorem splitChGo_fuel (sep : List Char) (hs : sep ≠ []) :
    ∀ (fuel : Nat) (l : List Char) (fuel' : Nat), l.length < fuel →
      l.length < fuel' → splitChGo sep fuel l = splitChGo sep fuel' l := by
  intro fuel
  induction fuel with
  | zero => intro l fuel' h _; omega
  | succ f ihf =>
    intro l fuel' h h'
    cases fuel' with
    | zero => omega
    | succ f' =>
      cases l with
      | nil => rfl
      | cons c cs =>
        have hsl : 1 ≤ sep.length := by
          cases sep with
          | nil => exact absurd rfl hs
          | cons a b => simp
        simp only [List.length_cons] at h h'
        simp only [splitChGo]
        by_cases hp : sep.isPrefixOf (c :: cs) = true
        · rw [if_pos hp, if_pos hp]
          have hl1 : ((c :: cs).drop sep.length).length < f := by
            simp only [List.length_drop, List.length_cons]
            omega
          have hl2 : ((c :: cs).drop sep.length).length < f' := by
            simp only [List.length_drop, List.length_cons]
            omega
          rw [ihf _ f' hl1 hl2]
        · rw [if_neg hp, if_neg hp]
          rw [ihf cs f' (by omega) (by omega)]

/-- A chunk free of the separator head character splits to itself alone. -/
theorem splitChGo_noSep (s₀ : Char) (sr : List Char) :
    ∀ (l : List Char) (fuel : Nat), l.length < fuel → s₀ ∉ l →
      splitChGo (s₀ :: sr) fuel l = [l] := by
  intro l
  induction l with
  | nil =>
    intro fuel h _
    cases fuel with
    | zero => omega
    | succ f => rfl
  | cons c cs ih =>
    intro fuel h hmem
    cases fuel with
    | zero => omega
    | succ f =>
      have hne : s₀ ≠ c := fun hh => hmem (hh ▸ List.mem_cons_self c cs)
      have hp : ¬ ((s₀ :: sr).isPrefixOf (c :: cs) = true) := by
        simp [List.isPrefixOf, hne]
      simp only [splitChGo]
      rw [if_neg hp]
      simp only [List.length_cons] at h
      rw [ih f (by omega) (fun hm => hmem (List.mem_cons_of_mem _ hm))]

/-- Splitting a text of the form `chunk ++ sep ++ rest`, with the chunk free
of the separator head: the chunk comes off and the rest splits on its own. -/
theorem splitChGo_append (s₀ : Char) (sr l₂ : List Char) :
    ∀ (l₁ : List Char) (fuel : Nat),
      (l₁ ++ ((s₀ :: sr) ++ l₂)).length < fuel → s₀ ∉ l₁ →
      splitChGo (s₀ :: sr) fuel (l₁ ++ ((s₀ :: sr) ++ l₂)) =
        l₁ :: splitCh (s₀ :: sr) l₂ := by
  intro l₁
  induction l₁ with
  | nil =>
    intro fuel h _
    cases fuel with
    | zero => simp at h
    | succ f =>
      simp only [List.nil_append, List.cons_append, splitChGo, List.append_eq]
      have hp : (s₀ :: sr).isPrefixOf (s₀ :: (sr ++ l₂)) = true := by
        simp [List.cons_append]
      rw [if_pos hp]
      have hdrop : (s₀ :: (sr ++ l₂)).drop (s₀ :: sr).length = l₂ := by
        simp [List.cons_append]
      rw [hdrop]
      have hl2 : l₂.length < f := by
        simp only [List.nil_append, List.length_append, List.length_cons] at h
        omega
      unfold splitCh
      rw [if_neg (by simp : ¬ ((s₀ :: sr).isEmpty = true))]
      rw [splitChGo_fuel (s₀ :: sr) (by simp) f l₂ (l₂.length + 1) hl2 (by omega)]
  | cons a t iht =>
    intro fuel h hmem
    cases fuel with
    | zero => simp at h
    | succ f =>
      have hne : s₀ ≠ a := fun hh => hmem (hh ▸ List.mem_cons_self a t)
      simp only [List.cons_append] at iht h
      simp only [List.cons_append, splitChGo, List.append_eq]
      rw [if_neg (by simp [List.isPrefixOf, hne])]
      rw [iht f (by simp only [List.length_cons] at h; omega)
        (fun hm => hmem (List.mem_cons_of_mem _ hm))]

/-- `splitCh` on `chunk ++ sep ++ rest` with a separator-free chunk. -/
theorem splitCh_append (s₀ : Char) (sr l₁ l₂ : List Char) (hmem : s₀ ∉ l₁) :
    splitCh (s₀ :: sr) (l₁ ++ ((s₀ :: sr) ++ l₂)) =
      l₁ :: splitCh (s₀ :: sr) l₂ := by
  have hstep : splitCh (s₀ :: sr) (l₁ ++ ((s₀ :: sr) ++ l₂)) =
      splitChGo (s₀ :: sr) ((l₁ ++ ((s₀ :: sr) ++ l₂)).length + 1)
        (l₁ ++ ((s₀ :: sr) ++ l₂)) := by
    unfold splitCh
    rw [if_neg (by simp : ¬ ((s₀ :: sr).isEmpty = true))]
  rw [hstep, splitChGo_append s₀ sr l₂ l₁ _ (by omega) hmem]

/-- `splitCh` on a separator-free text. -/
theorem splitCh_noSep (s₀ : Char) (sr l : List Char) (hmem : s₀ ∉ l) :
    splitCh (s₀ :: sr) l = [l] := by
  unfold splitCh
  rw [if_neg (by simp : ¬ ((s₀ :: sr).isEmpty = true))]
  exact splitChGo_noSep s₀ sr l (l.length + 1) (by omega) hmem

/-- Rebuilding a string from the concatenated character lists of two
strings is their append. -/
theorem mkToListAppend (s t : String) : String.mk (s.toList ++ t.toList) = s ++ t := by
  cases s
  cases t
  rfl

/-- Rebuilding a string from its own character list. -/
theorem mkToList (s : String) : String.mk s.toList = s := by
  cases s
  rfl

/-- `mkToListAppend`, phrased on the underlying `data` fields. -/
theorem mkDataAppend (s t : String) : String.mk (s.data ++ t.data) = s ++ t := by
  cases s
  cases t
  rfl

/-- `mkToList`, phrased on the underlying `data` field. -/
theorem mkData (s : String) : String.mk s.data = s := by
  cases s
  rfl

/-- Membership in the characters of a three-part concatenation. -/
theorem memAppend3 (pre s post : String) (c : Char) :
    c ∈ (pre ++ s ++ post).toList ↔
      (c ∈ pre.toList ∨ c ∈ s.toList ∨ c ∈ post.toList) := by
  simp [String.toList, String.data_append, List.mem_append, or_assoc]

/-- A label whose witness character is neither in the fixed prefix, the
digit string, nor the suffix does not occur in a `Total Size` line. -/
theorem lineLabelFalse (s : String) (n : Nat) (hd : decToNat? s = some n)
    (post pat : String) (c : Char) (hcp : c ∈ pat.toList)
    (hc : decDigit? c = none) (h1 : c ∉ "Total Size: ".toList)
    (h2 : c ∉ post.toList) :
    strContains ("Total Size: " ++ s ++ post) pat = false := by
  show containsCh pat.toList ("Total Size: " ++ s ++ post).toList = false
  refine containsChFalse _ _ c hcp ?_
  intro hm
  rw [memAppend3] at hm
  rcases hm with hm | hm | hm
  · exact h1 hm
  · exact notMemDigits s n hd c hc hm
  · exact h2 hm

/-- The value split of a `Total Size` line built from a digit string and a
colon-free suffix. -/
theorem totalSizeSplit (s : String) (n : Nat) (hd : decToNat? s = some n)
    (post : String) (hpost : (':' : Char) ∉ post.toList) :
    pySplit ("Total Size: " ++ s ++ post) ": " = ["Total Size", s ++ post] := by
  unfold pySplit
  rw [show (": ").toList = ((':' : Char) :: [' ']) from rfl]
  rw [show ("Total Size: " ++ s ++ post).toList =
      "Total Size".toList ++ (((':' : Char) :: [' ']) ++ (s.toList ++ post.toList))
    from rfl]
  rw [splitCh_append ':' [' '] "Total Size".toList (s.toList ++ post.toList)
    (by decide)]
  rw [splitCh_noSep ':' [' '] (s.toList ++ post.toList) ?_]
  · simp [mkToList, mkToListAppend, mkData, mkDataAppend]
  · intro hm
    rcases List.mem_append.mp hm with hm | hm
    · exact notMemDigits s n hd ':' (by decide) hm
    · exact hpost hm

/-- The suffix split of a digit string followed by a letter suffix
(`"KB"`/`"MB"`): the digits come off whole. -/
theorem suffixSplit (s : String) (n : Nat) (hd : decToNat? s = some n)
    (c₀ c₁ : Char) (hc : decDigit? c₀ = none) :
    pySplit (s ++ String.mk [c₀, c₁]) (String.mk [c₀, c₁]) = [s, ""] := by
  unfold pySplit
  rw [show (String.mk [c₀, c₁]).toList = (c₀ :: [c₁]) from rfl]
  rw [show (s ++ String.mk [c₀, c₁]).toList =
      s.toList ++ ((c₀ :: [c₁]) ++ ([] : List Char)) from rfl]
  rw [splitCh_append c₀ [c₁] s.toList [] (notMemDigits s n hd c₀ hc)]
  rw [show splitCh (c₀ :: [c₁]) ([] : List Char) = [[]] from rfl]
  simp [mkToList]

/-- A `totalSize` decode for the `KB` suffix. -/
theorem decodeTotalSizeKB (s : String) (n : Nat) (hd : decToNat? s = some n) :
    decodeLine ("Total Size: " ++ s ++ "KB") = some (.totalSize (n * 1024)) := by
  have hDev := lineLabelFalse s n hd "KB" "Device" 'D' (by decide) (by decide)
    (by decide) (by decide)
  have hVer := lineLabelFalse s n hd "KB" "Version" 'V' (by decide) (by decide)
    (by decide) (by decide)
  have hAdr := lineLabelFalse s n hd "KB" "Address" 'A' (by decide) (by decide)
    (by decide) (by decide)
  have hPag := lineLabelFalse s n hd "KB" "Pages" 'P' (by decide) (by decide)
    (by decide) (by decide)
  have hPgs := lineLabelFalse s n hd "KB" "Page Size" 'P' (by decide) (by decide)
    (by decide) (by decide)
  have hTS : strContains ("Total Size: " ++ s ++ "KB") "Total Size" = true :=
    containsChAppend "Total Size".toList []
      (((':' : Char) :: [' ']) ++ (s.toList ++ "KB".toList))
  have hfield : (pySplit ("Total Size: " ++ s ++ "KB") ": ")[1]? =
      some (s ++ "KB") := by
    rw [totalSizeSplit s n hd "KB" (by decide)]
    rfl
  have hKBin : strContains (s ++ "KB") "KB" = true :=
    containsChAppend "KB".toList s.toList []
  have hsplitKB : (pySplit (s ++ "KB") "KB")[0]? = some s := by
    have hs := suffixSplit s n hd 'K' 'B' (by decide)
    rw [show (s ++ "KB") = (s ++ String.mk ['K', 'B']) from rfl,
      show ("KB" : String) = String.mk ['K', 'B'] from rfl, hs]
    rfl
  unfold decodeLine
  rw [if_neg (by simp [hDev]), if_neg (by simp [hVer]), if_neg (by simp [hAdr]),
    if_neg (by simp [hPag]), if_neg (by simp [hPgs]), if_pos hTS, hfield]
  dsimp only
  rw [if_pos hKBin, hsplitKB]
  dsimp only
  rw [hd]

/-- A `totalSize` decode for the `MB` suffix. -/
theorem decodeTotalSizeMB (s : String) (n : Nat) (hd : decToNat? s = some n) :
    decodeLine ("Total Size: " ++ s ++ "MB") = some (.totalSize (n * 1024 * 1024)) := by
  have hDev := lineLabelFalse s n hd "MB" "Device" 'D' (by decide) (by decide)
    (by decide) (by decide)
  have hVer := lineLabelFalse s n hd "MB" "Version" 'V' (by decide) (by decide)
    (by decide) (by decide)
  have hAdr := lineLabelFalse s n hd "MB" "Address" 'A' (by decide) (by decide)
    (by decide) (by decide)
  have hPag := lineLabelFalse s n hd "MB" "Pages" 'P' (by decide) (by decide)
    (by decide) (by decide)
  have hPgs := lineLabelFalse s n hd "MB" "Page Size" 'P' (by decide) (by decide)
    (by decide) (by decide)
  have hTS : strContains ("Total Size: " ++ s ++ "MB") "Total Size" = true :=
    containsChAppend "Total Size".toList []
      (((':' : Char) :: [' ']) ++ (s.toList ++ "MB".toList))
  have hfield : (pySplit ("Total Size: " ++ s ++ "MB") ": ")[1]? =
      some (s ++ "MB") := by
    rw [totalSizeSplit s n hd "MB" (by decide)]
    rfl
  have hKBout : strContains (s ++ "MB") "KB" = false := by
    show containsCh "KB".toList (s ++ "MB").toList = false
    refine containsChFalse _ _ 'K' (by decide) ?_
    rw [show (s ++ "MB").toList = s.toList ++ "MB".toList from rfl]
    intro hm
    rcases List.mem_append.mp hm with hm | hm
    · exact notMemDigits s n hd 'K' (by decide) hm
    · exact absurd hm (by decide)
  have hMBin : strContains (s ++ "MB") "MB" = true :=
    containsChAppend "MB".toList s.toList []
  have hsplitMB : (pySplit (s ++ "MB") "MB")[0]? = some s := by
    have hs := suffixSplit s n hd 'M' 'B' (by decide)
    rw [show (s ++ "MB") = (s ++ String.mk ['M', 'B']) from rfl,
      show ("MB" : String) = String.mk ['M', 'B'] from rfl, hs]
    rfl
  unfold decodeLine
  rw [if_neg (by simp [hDev]), if_neg (by simp [hVer]), if_neg (by simp [hAdr]),
    if_neg (by simp [hPag]), if_neg (by simp [hPgs]), if_pos hTS, hfield]
  dsimp only
  rw [if_neg (by simp [hKBout]), if_pos hMBin, hsplitMB]
  dsimp only
  rw [hd]

/-- C9: for every integer n (given as a decimal digit string of value n), a
programmer-info line `Total Size: nKB` parses to `total_size = n * 1024`
bytes and `Total Size: nMB` to `n * 1024 * 1024` bytes, the step succeeding
and writing only `total_size`; in particular an info text containing
`"Total Size: 1024KB"` yields `total_size = 1024 * 1024`. -/
theorem bossa_total_size_scaling :
    (∀ (s : String) (n : Nat) (r : BossaInfo) (w : List String),
      decToNat? s = some n →
      bossaLine (r, w) ("Total Size: " ++ s ++ "KB") =
        .ok ({ r with total_size := some (n * 1024) }, w)) ∧
    (∀ (s : String) (n : Nat) (r : BossaInfo) (w : List String),
      decToNat? s = some n →
      bossaLine (r, w) ("Total Size: " ++ s ++ "MB") =
        .ok ({ r with total_size := some (n * 1024 * 1024) }, w)) ∧
    (bossaSet "Device: ATSAM4S8C\nTotal Size: 1024KB").map
        (fun p => p.1.total_size) = .ok (some (1024 * 1024)) := by
  refine ⟨?_, ?_, ?_⟩
  · intro s n r w hd
    exact bossaLine_decode _ _ (decodeTotalSizeKB s n hd) r w
  · intro s n r w hd
    exact bossaLine_decode _ _ (decodeTotalSizeMB s n hd) r w
  · rfl

/-- C9 witness: the `KB` branch applied at the digit string `"2"`. -/
theorem bossa_total_size_scaling_witness :
    bossaLine (BossaInfo.start, []) "Total Size: 2KB" =
      .ok ({ BossaInfo.start with total_size := some 2048 }, []) :=
  bossa_total_size_scaling.1 "2" 2 BossaInfo.start [] (by decide)

end McuIntf
